import Mathlib

/-!
# Verification of the usim800 SIM800 modem driver

Shallow embedding of the protocol layer of the `usim800` Python driver:
text lines and byte strings are modelled as `List Nat` (code points /
byte values), the serial link as explicit chunk/availability schedules,
and fallible operations as `Except`.  Every definition is translated from
the Python source in `src/usim800/`; the few definitions written from the
specification's words (for comparison against the code) say so in their
doc strings.
-/

namespace USim800

/-- A text line or byte string, as a list of code points / byte values.
Models a Python `str` (sequence of code points) or `bytes`. -/
abbrev Line := List Nat

/-- Code points of a Lean string literal (all our literals are ASCII). -/
def asciiOf (s : String) : Line := s.data.map Char.toNat

/-- Python whitespace characters stripped by `str.strip()` and matched by
the regex class `\s` (ASCII range: tab, LF, VT, FF, CR, space). -/
def isPyWS (c : Nat) : Bool := c = 9 || c = 10 || c = 11 || c = 12 || c = 13 || c = 32

/-- Model of Python `str.strip()`: drop whitespace from both ends. -/
def pyStrip (s : Line) : Line :=
  ((s.dropWhile isPyWS).reverse.dropWhile isPyWS).reverse

/-- Model of Python `str.lower()` restricted to the ASCII range (the CMGL
payloads this driver lowercases are ASCII hex text). -/
def pyLowerChar (c : Nat) : Nat := if 65 ≤ c ∧ c ≤ 90 then c + 32 else c

/-- Model of Python `str.lower()` on a line. -/
def pyLower (s : Line) : Line := s.map pyLowerChar

/-- First index at or after which `pat` occurs in `l` (Python `find` and
the substring side of the `in` operator). `none` when `pat` never occurs. -/
def findSub (pat : Line) : Line → Option Nat
  | [] => if pat.isPrefixOf ([] : Line) then some 0 else none
  | l@(_ :: t) => if pat.isPrefixOf l then some 0 else (findSub pat t).map (· + 1)

/-- Python `haystack.find(pat, start)`: first occurrence index `≥ start`. -/
def findSubFrom (pat : Line) (start : Nat) (l : Line) : Option Nat :=
  (findSub pat (l.drop start)).map (· + start)

/-- ASCII decimal digit. -/
def isDigitChar (c : Nat) : Bool := 48 ≤ c && c ≤ 57

/-- Value of a string of decimal digits (Python `int(s)`). -/
def digitsVal (ds : Line) : Nat := ds.foldl (fun acc d => acc * 10 + (d - 48)) 0

instance {ε α : Type} [DecidableEq ε] [DecidableEq α] : DecidableEq (Except ε α) :=
  fun a b =>
    match a, b with
    | .ok x, .ok y =>
      if h : x = y then isTrue (by rw [h])
      else isFalse (fun hc => h (by cases hc; rfl))
    | .error x, .error y =>
      if h : x = y then isTrue (by rw [h])
      else isFalse (fun hc => h (by cases hc; rfl))
    | .ok _, .error _ => isFalse (fun hc => by cases hc)
    | .error _, .ok _ => isFalse (fun hc => by cases hc)

/-! ## C7 — Signal quality bars (`src/usim800/network.py`, `SignalQuality.bars`) -/

/-- `SignalQuality.bars` from `network.py` (lines 41-63):
`if rssi == 99 or rssi < 2: 0 elif < 10: 1 elif < 15: 2 elif < 20: 3
elif < 25: 4 else: 5`. -/
def bars (rssi : Nat) : Nat :=
  if rssi = 99 ∨ rssi < 2 then 0
  else if rssi < 10 then 1
  else if rssi < 15 then 2
  else if rssi < 20 then 3
  else if rssi < 25 then 4
  else 5

/-- Written from the spec's words (§3): thresholds
`<2→0, <10→1, <15→2, <20→3, <25→4, else 5`, and 0 when RSSI is 99. -/
def barsSpecTable (rssi : Nat) : Nat :=
  if rssi = 99 then 0
  else if rssi < 2 then 0
  else if rssi < 10 then 1
  else if rssi < 15 then 2
  else if rssi < 20 then 3
  else if rssi < 25 then 4
  else 5

/-! ## C9 — `CombinedLock` (`src/usim800/locks.py`) -/

/-- State of a `CombinedLock` as seen by one process: the `threading.RLock`
layer (owning thread and recursion count) together with the number of file
descriptors on which the process currently holds the exclusive `flock`.
Each `acquire()` call opens the lockfile afresh (`os.open`), so each nested
call locks a distinct descriptor. -/
structure LockState where
  tOwner : Option Nat
  tCount : Nat
  fdHeld : Nat
  deriving DecidableEq

/-- `threading.RLock.acquire` semantics: succeeds when the lock is free or
already owned by the calling thread (hold count incremented); a call from
another thread blocks (`none`). -/
def rlockAcquire (tid : Nat) (s : LockState) : Option LockState :=
  match s.tOwner with
  | none => some { s with tOwner := some tid, tCount := 1 }
  | some o => if o = tid then some { s with tCount := s.tCount + 1 } else none

/-- `fcntl.flock(fd, LOCK_EX)` on a freshly opened descriptor of the
lockfile, per flock(2): descriptors from separate `open` calls are
independent, so the call blocks (`none`) whenever the exclusive lock is
already held on any other descriptor — including one held by the very
thread making the call.  It succeeds only when no descriptor holds it. -/
def flockAcquireNewFd (s : LockState) : Option LockState :=
  if s.fdHeld = 0 then some { s with fdHeld := s.fdHeld + 1 } else none

/-- `CombinedLock.acquire` (locks.py lines 31-54) on a POSIX system with a
lockfile configured: enter the thread lock, then open the lockfile and
`flock` it exclusively.  `none` models the call blocking forever. -/
def combinedAcquire (tid : Nat) (s : LockState) : Option LockState :=
  match rlockAcquire tid s with
  | none => none
  | some s1 => flockAcquireNewFd s1

/-! ## C10 — Power argument validation (`src/usim800/power.py`) -/

/-- `PowerError` raise sites in `power.py`. -/
inductive PowerErr where
  | invalidCfun (modeArg : Int)
  | invalidCsclk
  deriving DecidableEq

/-- `Power.set_functionality` (power.py lines 28-44): the trace of AT
command lines handed to `at.command`, and the raised error if any.  The
argument check precedes the `at.command` call, so an invalid argument
yields an empty trace. -/
def setFunctionality (f : Int) : List Line × Option PowerErr :=
  if ¬ (f = 0 ∨ f = 1 ∨ f = 4) then ([], some (.invalidCfun f))
  else ([asciiOf ("AT+CFUN=" ++ toString f)], none)

/-- `Power.set_sleep` (power.py lines 46-62). -/
def setSleep (m : Int) : List Line × Option PowerErr :=
  if ¬ (m = 0 ∨ m = 1 ∨ m = 2) then ([], some .invalidCsclk)
  else ([asciiOf ("AT+CSCLK=" ++ toString m)], none)

/-! ## C5 — SMS send charset and UCS-2 payload (`src/usim800/sms.py`) -/

/-- `SMS._needs_ucs2` (sms.py lines 119-126).  Stock Python has no
`gsm0338` codec, so the `try` always falls through to the heuristic
`any(ord(ch) > 127 for ch in text)`. -/
def needsUcs2 (s : Line) : Bool := s.any (fun c => 127 < c)

/-- UTF-16 big-endian encoding of a list of Unicode scalar values, as
bytes (Python `str.encode("utf-16-be")`; code points above the BMP become
surrogate pairs).  This models the encoding only on scalar values: for a
lone surrogate (55296-57343) Python's `encode` raises
`UnicodeEncodeError` instead of producing bytes, so theorems using this
function hypothesise the surrogate range away. -/
def utf16beBytes (s : Line) : Line :=
  s.flatMap fun c =>
    if c < 65536 then [c / 256, c % 256]
    else
      [(55296 + (c - 65536) / 1024) / 256, (55296 + (c - 65536) / 1024) % 256,
       (56320 + (c - 65536) % 1024) / 256, (56320 + (c - 65536) % 1024) % 256]

/-- Uppercase hexadecimal digit of a value below 16. -/
def hexDigitUpper (n : Nat) : Nat := if n < 10 then 48 + n else 55 + n

/-- Python `bytes.hex().upper()`: two uppercase hex digits per byte. -/
def hexUpper (bs : Line) : Line :=
  bs.flatMap fun b => [hexDigitUpper (b / 16), hexDigitUpper (b % 16)]

/-- What `SMS.send` writes for a given number and text: the `AT+CSCS`
command issued, the `AT+CMGS` command line, and the body bytes written
after the `>` prompt (payload plus Ctrl-Z). -/
structure SendPlan where
  charsetCmd : Line
  cmgsCmd : Line
  body : Line
  deriving DecidableEq

/-- `SMS.send` (sms.py lines 155-171 and 190-191): charset selection,
number/text encoding, the `AT+CMGS="<number>"\r\n` line (ASCII-encoded
with `errors="ignore"`, i.e. code points ≥ 128 dropped) and the body
written before Ctrl-Z (`0x1A`).  Valid only when number and text are
Unicode scalar values: on a lone surrogate the source's
`encode("utf-16-be")` raises, `send` traps the exception and returns
`False`, and no CMGS line or body is written — that error path is not
modelled here, so theorems about this plan exclude the surrogate range. -/
def smsSendPlan (number text : Line) : SendPlan :=
  let useUcs2 := needsUcs2 text || needsUcs2 number
  if useUcs2 then
    let numberToSend := hexUpper (utf16beBytes number)
    { charsetCmd := asciiOf "AT+CSCS=\"UCS2\""
      cmgsCmd := (asciiOf "AT+CMGS=\"" ++ numberToSend ++ asciiOf "\"\r\n").filter
        (fun c => c < 128)
      body := hexUpper (utf16beBytes text) ++ [26] }
  else
    { charsetCmd := asciiOf "AT+CSCS=\"GSM\""
      cmgsCmd := (asciiOf "AT+CMGS=\"" ++ number ++ asciiOf "\"\r\n").filter
        (fun c => c < 128)
      body := text.filter (fun c => c < 128) ++ [26] }

/-! ## C6 — CMGL UCS-2 body-line decoder (`src/usim800/sms.py` lines 30-48) -/

/-- Lowercase hexadecimal digit (the characters of `'0123456789abcdef'`). -/
def isHexDigitLower (c : Nat) : Bool :=
  (48 ≤ c && c ≤ 57) || (97 ≤ c && c ≤ 102)

/-- Value of one lowercase hex digit. -/
def hexVal (c : Nat) : Nat :=
  if 48 ≤ c ∧ c ≤ 57 then c - 48 else if 97 ≤ c ∧ c ≤ 102 then c - 87 else 0

/-- `chr(int(prepared[i*4:(i+1)*4], 16))` for each group of four hex
digits (sms.py lines 44-48). -/
def decodeHexGroups : Line → Line
  | a :: b :: c :: d :: rest =>
      (hexVal a * 4096 + hexVal b * 256 + hexVal c * 16 + hexVal d) :: decodeHexGroups rest
  | _ => []

/-- `_try_decode_utf16_encoded_string` (sms.py lines 30-48): strip and
lowercase; if the length is a multiple of 4 and every character is a hex
digit, decode each 4-digit group with `chr(int(_, 16))`; otherwise return
the line unchanged. -/
def tryDecodeUtf16 (s : Line) : Line :=
  let prepared := pyLower (pyStrip s)
  if prepared.length % 4 ≠ 0 then s
  else if ¬ (prepared.all isHexDigitLower = true) then s
  else decodeHexGroups prepared

/-- Written from the spec's words ("interpreted as UTF-16 BE and
decoded"): UTF-16 decoding of a sequence of 16-bit code units, combining
surrogate pairs into supplementary-plane code points.  Used to compare the
code's per-unit decoder against genuine UTF-16 BE decoding. -/
def utf16DecodeUnits : Line → Line
  | [] => []
  | [u1] => [u1]
  | u1 :: u2 :: rest2 =>
    if 55296 ≤ u1 ∧ u1 < 56320 ∧ 56320 ≤ u2 ∧ u2 < 57344 then
      (65536 + (u1 - 55296) * 1024 + (u2 - 56320)) :: utf16DecodeUnits rest2
    else u1 :: utf16DecodeUnits (u2 :: rest2)

/-! ## AT channel (`src/usim800/at.py`) — C3 and C8 -/

/-- Parsed AT response (`ATResponse` in at.py): stripped reply lines and
the raw bytes consumed. -/
structure ATResp where
  lines : List Line
  raw : Line
  deriving DecidableEq

/-- The default `terminals` of `_read_until_terminal`. -/
def defaultTerminals : List Line := [asciiOf "OK", asciiOf "ERROR"]

/-- Terminal recognition in `_read_until_terminal` (at.py lines 121-127):
a line is terminal when it equals one of the terminals, or when it
contains the substring `ERROR` and is not `OK`. -/
def isTerminalLine (terminals : List Line) (l : Line) : Bool :=
  l ∈ terminals || ((findSub (asciiOf "ERROR") l).isSome && ¬ l = asciiOf "OK")

/-- Python `s.replace("AT", "")`: delete every leftmost, non-overlapping
occurrence of `AT` (code points 65, 84). -/
def removeAT : Line → Line
  | 65 :: 84 :: rest => removeAT rest
  | c :: rest => c :: removeAT rest
  | [] => []

/-- The defensive echo comparison line `cmd_sent.replace("AT", "").strip()`
(at.py line 115). -/
def echoAlt (cmd : Line) : Line := pyStrip (removeAT cmd)

/-- `ATChannel._read_until_terminal` (at.py lines 85-129).  The serial
input is modelled as the list of raw lines `readline` delivers before the
deadline; exhausting the list models the timeout (`.error ()` stands for
the raised `ATTimeoutError`).  `acc`/`raw` accumulate the response lines
and raw bytes, `echoFiltered` is the echo flag. -/
def readLoop (terminals : List Line) (cmdSent : Option Line) (echoFiltered : Bool)
    (acc : List Line) (raw : Line) : List Line → Except Unit ATResp
  | [] => .error ()
  | chunk :: rest =>
    let raw2 := raw ++ chunk
    let line := pyStrip chunk
    if line = [] then readLoop terminals cmdSent echoFiltered acc raw2 rest
    else
      match cmdSent with
      | some c =>
        if ¬ echoFiltered ∧ (line = c ∨ line = echoAlt c) then
          readLoop terminals cmdSent true acc raw2 rest
        else
          if isTerminalLine terminals line then .ok ⟨acc ++ [line], raw2⟩
          else readLoop terminals cmdSent echoFiltered (acc ++ [line]) raw2 rest
      | none =>
        if isTerminalLine terminals line then .ok ⟨acc ++ [line], raw2⟩
        else readLoop terminals cmdSent echoFiltered (acc ++ [line]) raw2 rest

/-- `_read_until_terminal` entry point: flags and accumulators start empty. -/
def readUntilTerminal (terminals : List Line) (cmdSent : Option Line)
    (input : List Line) : Except Unit ATResp :=
  readLoop terminals cmdSent false [] [] input

/-- Leftmost match of the regex `\+CME ERROR:\s*(\d+)` (resp. CMS): scan
for the literal marker, skip whitespace, then read at least one digit;
positions where no digit follows do not match and the scan continues. -/
def findCodeAfter (marker : Line) : Line → Option Nat
  | [] => none
  | l@(_ :: t) =>
    if marker.isPrefixOf l then
      let digits := ((l.drop marker.length).dropWhile isPyWS).takeWhile isDigitChar
      if digits = [] then findCodeAfter marker t else some (digitsVal digits)
    else findCodeAfter marker t

/-- The details carried by a raised `ATError`
(`ATCommandErrorDetails` in exceptions.py). -/
structure ATErrDetails where
  command : Line
  response : Line
  cme : Option Nat
  cms : Option Nat
  deriving DecidableEq

/-- `ATChannel._raise_if_error` (at.py lines 131-148): the details of the
`ATError` it raises, or `none` when the response is not an error.
`response` is `"\n".join(lines)` and the codes come from the regexes
`\+CME ERROR:\s*(\d+)` and `\+CMS ERROR:\s*(\d+)` searched over it. -/
def raiseIfError (cmd : Line) (resp : ATResp) : Option ATErrDetails :=
  let text := List.intercalate (asciiOf "\n") resp.lines
  if resp.lines.contains (asciiOf "ERROR")
      || resp.lines.any (fun l => (asciiOf "+CME ERROR").isPrefixOf l)
      || resp.lines.any (fun l => (asciiOf "+CMS ERROR").isPrefixOf l) then
    some { command := cmd, response := text,
           cme := findCodeAfter (asciiOf "+CME ERROR:") text,
           cms := findCodeAfter (asciiOf "+CMS ERROR:") text }
  else none

/-- Failure outcome of `ATChannel.command`: a raised `ATTimeoutError` or a
raised `ATError`; the source never returns these as values. -/
inductive CmdFail where
  | timeout
  | atErr (d : ATErrDetails)
  deriving DecidableEq

/-- The attempt loop of `ATChannel.command` (at.py lines 219-252), one
entry of `streams` per attempt (each attempt rewrites the command and
reads fresh lines; `retries` in the source equals `streams.length - 1`).
A timeout retries while attempts remain; an error-terminated response is
checked by `_raise_if_error` when `expect_ok` and never retried.  The
wake character and sleeps are not observable here. -/
def commandGo (cmd : Line) (expectOk : Bool) : List (List Line) → Except CmdFail ATResp
  | [] => .error .timeout
  | s :: rest =>
    match readUntilTerminal defaultTerminals (some cmd) s with
    | .error _ =>
      match rest with
      | [] => .error .timeout
      | _ :: _ => commandGo cmd expectOk rest
    | .ok resp =>
      if expectOk then
        match raiseIfError cmd resp with
        | some d => .error (.atErr d)
        | none => .ok resp
      else .ok resp

/-- `ATChannel.command` with the source's initial `cmd = cmd.strip()`. -/
def commandAttempts (cmd : Line) (expectOk : Bool) (streams : List (List Line)) :
    Except CmdFail ATResp :=
  commandGo (pyStrip cmd) expectOk streams

/-- Written from the amended claim's words: the non-empty stripped lines
of the incoming stream (line framing: "one line = bytes up to the next
LF, stripped; empty lines discarded"). -/
def cleanLines (input : List Line) : List Line :=
  (input.map pyStrip).filter (fun l => ¬ l = [])

/-- Written from the amended claim's words: remove the first line matching
the echo of `c` (the command verbatim, or with `AT` removed). -/
def removeFirstEcho (c : Line) : List Line → List Line
  | [] => []
  | l :: rest => if l = c ∨ l = echoAlt c then rest else l :: removeFirstEcho c rest

/-- Written from the amended claim's words: plain terminal scan with no
echo filtering — keep every line until the first terminal (inclusive);
`.error ()` models the timeout. -/
def scanToTerminal (terminals : List Line) : List Line → Except Unit (List Line)
  | [] => .error ()
  | l :: rest =>
    if isTerminalLine terminals l then .ok [l]
    else (scanToTerminal terminals rest).map (l :: ·)

/-! ## HTTP (`src/usim800/http.py`) — C1, C2 and C4 -/

/-- `HTTPResponse` (http.py lines 23-32). -/
structure HTTPResponse where
  statusCode : Nat
  data : Line
  deriving DecidableEq

/-- The `HTTPError` raise sites of the HTTP client, one constructor per
message; `stack` carries the `status_code` given to `_handle_http_error`,
every other site leaves `status_code = None`. -/
inductive HTTPErr where
  | didNotReceive
  | malformedRead
  | truncated (got expected : Nat)
  | urcTimeout
  | parseAction (line : Line)
  | noDownloadPrompt
  | stack (status : Nat)
  | noAttempts
  deriving DecidableEq

/-- The `status_code` attribute of the raised `HTTPError`. -/
def HTTPErr.statusCode : HTTPErr → Option Nat
  | .stack s => some s
  | _ => none

/-- `HTTP._handle_http_error` (http.py lines 117-148): every branch —
601, 602, 603, 604, 606 and the catch-all — raises an `HTTPError`
carrying `status_code = status` (the messages differ, the codes do not). -/
def handleHttpError (status : Nat) : HTTPErr := .stack status

/-- The marker bytes `+HTTPREAD:` (http.py line 168). -/
def httpReadMarker : Line := asciiOf "+HTTPREAD:"

/-- CRLF bytes. -/
def crlf : Line := [13, 10]

/-- First read loop of `HTTP._read_http_body` (http.py lines 184-189):
read chunks until the marker is in the buffer or the deadline passes.
The serial source is the byte list `inp`; `sched` lists, for each read
call before the deadline, how many bytes are available (`in_waiting`,
0 = nothing yet); the schedule running out models the deadline.  Returns
the buffer and the remaining source and schedule at loop exit. -/
def httpReadPhase1 (raw inp : Line) : List Nat → Line × Line × List Nat
  | [] => (raw, inp, [])
  | n :: rest =>
    if (findSub httpReadMarker raw).isSome then (raw, inp, n :: rest)
    else
      httpReadPhase1 (raw ++ inp.take (min n inp.length))
        (inp.drop (min n inp.length)) rest

/-- Second read loop (http.py lines 203-209): read until the buffer holds
`target = body_start + expected_length` bytes or the deadline passes; each
read asks for `min(remaining, 1024)` bytes and receives at most what is
available. -/
def httpReadPhase2 (target : Nat) (raw inp : Line) : List Nat → Line
  | [] => raw
  | n :: rest =>
    if target ≤ raw.length then raw
    else
      httpReadPhase2 target
        (raw ++ inp.take (min (min n (min (target - raw.length) 1024)) inp.length))
        (inp.drop (min (min n (min (target - raw.length) 1024)) inp.length)) rest

/-- `HTTP._read_http_body` (http.py lines 150-221) over serial source
`inp` and availability schedule `sched`: wait for the `+HTTPREAD:` marker,
locate the CRLF ending the marker line in the buffer as it stands, then
read exactly `expected_length` body bytes; trailing `OK` is drained
best-effort (not observable). -/
def readHttpBody (expectedLength : Nat) (inp : Line) (sched : List Nat) :
    Except HTTPErr Line :=
  if expectedLength = 0 then .ok []
  else
    let res := httpReadPhase1 [] inp sched
    match findSub httpReadMarker res.1 with
    | none => .error .didNotReceive
    | some markerPos =>
      match findSubFrom crlf markerPos res.1 with
      | none => .error .malformedRead
      | some firstCrlf =>
        let raw2 := httpReadPhase2 (firstCrlf + 2 + expectedLength) res.1 res.2.1 res.2.2
        if raw2.length < firstCrlf + 2 + expectedLength then
          .error (.truncated (raw2.length - (firstCrlf + 2)) expectedLength)
        else .ok ((raw2.drop (firstCrlf + 2)).take expectedLength)

/-- The marker of the `+HTTPACTION` URC regex. -/
def httpActionMarker : Line := asciiOf "+HTTPACTION:"

/-- One anchored attempt of the regex `\+HTTPACTION:\s*\d+,(\d+),(\d+)` at
the start of `l`: literal marker, whitespace, method digits, comma, status
digits, comma, length digits. -/
def matchActionAt (l : Line) : Option (Nat × Nat) :=
  if httpActionMarker.isPrefixOf l then
    let r1 := (l.drop httpActionMarker.length).dropWhile isPyWS
    let d1 := r1.takeWhile isDigitChar
    if d1 = [] then none
    else
      match r1.drop d1.length with
      | 44 :: r2 =>
        let d2 := r2.takeWhile isDigitChar
        if d2 = [] then none
        else
          match r2.drop d2.length with
          | 44 :: r3 =>
            let d3 := r3.takeWhile isDigitChar
            if d3 = [] then none else some (digitsVal d2, digitsVal d3)
          | _ => none
      | _ => none
  else none

/-- `re.search` of `\+HTTPACTION:\s*\d+,(\d+),(\d+)` (http.py line 251):
leftmost match, returning (status, length). -/
def parseHttpAction : Line → Option (Nat × Nat)
  | [] => none
  | l@(_ :: t) =>
    match matchActionAt l with
    | some r => some r
    | none => parseHttpAction t

/-- The serial input available to one `_action_and_read` attempt: the
`+HTTPACTION` URC line `wait_for_urc` returns (`none` = URC timeout), and
the byte source and availability schedule for the `HTTPREAD` that follows. -/
structure ActionInput where
  urcLine : Option Line
  bodyInp : Line
  bodySched : List Nat

/-- `HTTP._action_and_read` (http.py lines 223-271): wait for the URC
(any failure becomes the status-less "Timeout waiting for +HTTPACTION"
error), parse it, raise `_handle_http_error` for statuses ≥ 600, return an
empty body for HEAD (method 2) or zero length, else read the body. -/
def actionAndRead (method : Nat) (a : ActionInput) : Except HTTPErr HTTPResponse :=
  match a.urcLine with
  | none => .error .urcTimeout
  | some l =>
    match parseHttpAction l with
    | none => .error (.parseAction l)
    | some (status, len) =>
      if 600 ≤ status then .error (handleHttpError status)
      else if method = 2 then .ok ⟨status, []⟩
      else if len = 0 then .ok ⟨status, []⟩
      else
        match readHttpBody len a.bodyInp a.bodySched with
        | .error e => .error e
        | .ok b => .ok ⟨status, b⟩

/-- `retry_on_http_error(max_retries, retry_codes=(604,), delay=5.0)`
(http.py lines 35-66) around the per-attempt outcome `f`: the final
outcome and the number of attempts made.  An `HTTPError` whose
`status_code` is not 604 (including `None`) is re-raised at once; a 604 is
retried while attempts remain.  The 5-second inter-attempt sleep is not
observable here; `noAttempts` models the unreachable `raise last_error`
fallthrough of an empty loop. -/
def retryAux (f : Nat → Except HTTPErr HTTPResponse) (idx : Nat) :
    Nat → Except HTTPErr HTTPResponse × Nat
  | 0 => (.error .noAttempts, 0)
  | remaining + 1 =>
    match f idx with
    | .ok r => (.ok r, 1)
    | .error e =>
      if ¬ e.statusCode = some 604 then (.error e, 1)
      else if remaining = 0 then (.error e, 1)
      else
        ((retryAux f (idx + 1) remaining).1, (retryAux f (idx + 1) remaining).2 + 1)

/-- `HTTP.get` (http.py lines 273-296): URL and header parameters are set
per attempt (commands assumed to succeed, not modelled), then
`_action_and_read(method=0)` runs under `@retry_on_http_error(max_retries=3,
retry_codes=(604,), delay=5.0)`. -/
def getRun (inputs : Nat → ActionInput) : Except HTTPErr HTTPResponse × Nat :=
  retryAux (fun i => actionAndRead 0 (inputs i)) 0 3

/-- The serial inputs of spec scenario F: two `+HTTPACTION: 0,604,0` URCs,
then `+HTTPACTION: 0,200,11` with body `hello world`. -/
def scenarioF : Nat → ActionInput := fun i =>
  if i = 0 ∨ i = 1 then ⟨some (asciiOf "+HTTPACTION: 0,604,0"), [], []⟩
  else ⟨some (asciiOf "+HTTPACTION: 0,200,11"),
        asciiOf "+HTTPREAD: 11\r\nhello world\r\nOK\r\n", [100]⟩

/-- The prompt bytes `DOWNLOAD` (http.py line 373). -/
def downloadBytes : Line := asciiOf "DOWNLOAD"

/-- The DOWNLOAD-prompt wait loop of `HTTP.post` (http.py lines 370-379):
each element of `chunks` is one `ser.read` result before the deadline
(empty list = nothing available); the loop breaks at the first chunk that
itself contains `DOWNLOAD` — the test is per chunk, not on the
accumulated stream. -/
def waitDownloadLoop : List Line → Bool
  | [] => false
  | c :: rest => if (findSub downloadBytes c).isSome then true else waitDownloadLoop rest

/-- The `AT+HTTPDATA=<len>,<ms>\r\n` command bytes (http.py line 363). -/
def httpDataCmd (bodyLen ms : Nat) : Line :=
  asciiOf ("AT+HTTPDATA=" ++ toString bodyLen ++ "," ++ toString ms ++ "\r\n")

/-- The HTTPDATA handshake inside `HTTP.post` (http.py lines 357-385), up
to and including the body write, all inside one `lock.acquire()` scope:
the writes performed on success, or the raised error when the prompt is
not seen. -/
def httpDataUpload (body : Line) (ms : Nat) (chunks : List Line) :
    Except HTTPErr (List Line) :=
  if waitDownloadLoop chunks then .ok [httpDataCmd body.length ms, body]
  else .error .noDownloadPrompt

end USim800

/-! # Theorems -/

namespace USim800

theorem isPrefixOf_iff_exists {p l : Line} :
    p.isPrefixOf l = true ↔ ∃ t, l = p ++ t := by
  induction p generalizing l with
  | nil => simp [List.isPrefixOf]
  | cons a p ih =>
    cases l with
    | nil => simp [List.isPrefixOf]
    | cons b l =>
      simp only [List.isPrefixOf, Bool.and_eq_true, beq_iff_eq, ih, List.cons_append,
        List.cons.injEq]
      constructor
      · rintro ⟨rfl, t, rfl⟩; exact ⟨t, rfl, rfl⟩
      · rintro ⟨t, rfl, rfl⟩; exact ⟨rfl, t, rfl⟩

theorem findSub_isSome_iff {pat l : Line} :
    (findSub pat l).isSome = true ↔ ∃ u v, l = u ++ pat ++ v := by
  induction l with
  | nil =>
    simp only [findSub]
    constructor
    · intro h
      split at h
      · rename_i hp
        rw [isPrefixOf_iff_exists] at hp
        obtain ⟨t, ht⟩ := hp
        exact ⟨[], t, by simp [← ht]⟩
      · simp at h
    · rintro ⟨u, v, huv⟩
      obtain ⟨huv1, hv⟩ := List.append_eq_nil.mp huv.symm
      obtain ⟨hu, hp⟩ := List.append_eq_nil.mp huv1
      subst hp
      simp [List.isPrefixOf]
  | cons b t ih =>
    simp only [findSub]
    split
    · rename_i hp
      rw [isPrefixOf_iff_exists] at hp
      obtain ⟨w, hw⟩ := hp
      simp only [Option.isSome_some, true_iff]
      exact ⟨[], w, by simp [hw]⟩
    · rename_i hp
      rw [Option.isSome_map', ih]
      constructor
      · rintro ⟨u, v, rfl⟩
        exact ⟨b :: u, v, by simp⟩
      · rintro ⟨u, v, huv⟩
        cases u with
        | nil =>
          exfalso
          apply hp
          rw [isPrefixOf_iff_exists]
          exact ⟨v, by simpa using huv⟩
        | cons x u =>
          simp only [List.cons_append, List.cons.injEq] at huv
          exact ⟨u, v, huv.2⟩

set_option maxRecDepth 2000 in
theorem utf16beBytes_mem_lt {s : Line} (hs : ∀ c ∈ s, c < 1114112) :
    ∀ b ∈ utf16beBytes s, b < 256 := by
  have hmod : ∀ n : Nat, n % 256 < 256 := fun n => Nat.mod_lt _ (by norm_num)
  have hdiv : ∀ n : Nat, n < 65536 → n / 256 < 256 := fun n hn =>
    Nat.div_lt_of_lt_mul (by omega)
  intro b hb
  simp only [utf16beBytes, List.mem_flatMap] at hb
  obtain ⟨c, hc, hbc⟩ := hb
  have hc' := hs c hc
  by_cases hsmall : c < 65536
  · rw [if_pos hsmall] at hbc
    simp only [List.mem_cons, List.not_mem_nil, or_false] at hbc
    rcases hbc with rfl | rfl
    · exact hdiv _ hsmall
    · exact hmod _
  · rw [if_neg hsmall] at hbc
    have hq : (c - 65536) / 1024 < 1024 := Nat.div_lt_of_lt_mul (by omega)
    have hr : (c - 65536) % 1024 < 1024 := Nat.mod_lt _ (by norm_num)
    simp only [List.mem_cons, List.not_mem_nil, or_false] at hbc
    rcases hbc with h | h | h | h
    · rw [h]; exact hdiv _ (by omega)
    · rw [h]; exact hmod _
    · rw [h]; exact hdiv _ (by omega)
    · rw [h]; exact hmod _

theorem hexUpper_mem_lt {bs : Line} (h : ∀ b ∈ bs, b < 256) :
    ∀ x ∈ hexUpper bs, x < 128 := by
  intro x hx
  simp only [hexUpper, List.mem_flatMap, List.mem_cons, List.not_mem_nil, or_false] at hx
  obtain ⟨b, hb, rfl | rfl⟩ := hx <;>
    · have := h b hb
      unfold hexDigitUpper
      split <;> omega

/-- C5: for every number and text of Unicode scalar values (code points
below 1114112 and outside the surrogate range 55296-57343, on which the
source's `encode` would raise and `send` would return `False` writing
nothing), `SMS.send` issues `AT+CSCS="UCS2"` exactly when some code point
of the number or the text exceeds 127 (otherwise it issues
`AT+CSCS="GSM"`), and in UCS-2 mode the number inside the `AT+CMGS`
command and the payload written before Ctrl-Z are the uppercase hex of
the UTF-16 big-endian encoding of the original strings. -/
theorem C5_sms_charset_ucs2 (number text : Line)
    (hscalar : ∀ c ∈ number ++ text, c < 1114112 ∧ ¬ (55296 ≤ c ∧ c < 57344)) :
    ((smsSendPlan number text).charsetCmd = asciiOf "AT+CSCS=\"UCS2\"" ↔
      ∃ c ∈ number ++ text, 127 < c) ∧
    ((∃ c ∈ number ++ text, 127 < c) →
      (smsSendPlan number text).cmgsCmd =
        asciiOf "AT+CMGS=\"" ++ hexUpper (utf16beBytes number) ++ asciiOf "\"\r\n" ∧
      (smsSendPlan number text).body = hexUpper (utf16beBytes text) ++ [26]) := by
  have hnum : ∀ c ∈ number, c < 1114112 := fun c hc => (hscalar c (by simp [hc])).1
  have key : (needsUcs2 text || needsUcs2 number) = true ↔ ∃ c ∈ number ++ text, 127 < c := by
    simp only [needsUcs2, Bool.or_eq_true, List.any_eq_true, decide_eq_true_eq,
      List.mem_append]
    constructor
    · rintro (⟨c, hc, h⟩ | ⟨c, hc, h⟩)
      · exact ⟨c, Or.inr hc, h⟩
      · exact ⟨c, Or.inl hc, h⟩
    · rintro ⟨c, hc | hc, h⟩
      · exact Or.inr ⟨c, hc, h⟩
      · exact Or.inl ⟨c, hc, h⟩
  constructor
  · by_cases hu : (needsUcs2 text || needsUcs2 number) = true
    · rw [← key]
      simp [smsSendPlan, hu]
    · have hu' : (needsUcs2 text || needsUcs2 number) = false := by
        revert hu; cases needsUcs2 text || needsUcs2 number <;> simp
      have hgsm : (smsSendPlan number text).charsetCmd = asciiOf "AT+CSCS=\"GSM\"" := by
        simp [smsSendPlan, hu']
      rw [hgsm]
      constructor
      · intro hfalse; exact absurd hfalse (by decide)
      · intro hex; exact absurd (key.mpr hex) hu
  · intro hex
    have hu : (needsUcs2 text || needsUcs2 number) = true := key.mpr hex
    have h2 : (smsSendPlan number text).body = hexUpper (utf16beBytes text) ++ [26] := by
      simp [smsSendPlan, hu]
    have h1 : (smsSendPlan number text).cmgsCmd =
        (asciiOf "AT+CMGS=\"" ++ hexUpper (utf16beBytes number) ++ asciiOf "\"\r\n").filter
          (fun c => c < 128) := by
      simp [smsSendPlan, hu]
    refine ⟨?_, h2⟩
    rw [h1]
    rw [List.filter_eq_self.mpr]
    intro a ha
    simp only [List.mem_append] at ha
    have haa : a < 128 := by
      rcases ha with (ha | ha) | ha
      · revert a; decide
      · exact hexUpper_mem_lt (utf16beBytes_mem_lt hnum) a ha
      · revert a; decide
    simpa using haa

/-- Witness for C5 at number `"+1"` (`[43, 49]`) and text `"hé"`
(`[104, 233]`), whose code point 233 exceeds 127. -/
theorem C5_sms_charset_ucs2_witness :
    ((smsSendPlan [43, 49] [104, 233]).charsetCmd = asciiOf "AT+CSCS=\"UCS2\"" ↔
      ∃ c ∈ [43, 49] ++ [104, 233], 127 < c) ∧
    ((∃ c ∈ [43, 49] ++ [104, 233], 127 < c) →
      (smsSendPlan [43, 49] [104, 233]).cmgsCmd =
        asciiOf "AT+CMGS=\"" ++ hexUpper (utf16beBytes [43, 49]) ++ asciiOf "\"\r\n" ∧
      (smsSendPlan [43, 49] [104, 233]).body = hexUpper (utf16beBytes [104, 233]) ++ [26]) :=
  C5_sms_charset_ucs2 [43, 49] [104, 233] (by decide)

theorem utf16DecodeUnits_eq_self {l : Line}
    (h : ∀ u ∈ l, ¬ (55296 ≤ u ∧ u < 56320)) : utf16DecodeUnits l = l := by
  induction l with
  | nil => rfl
  | cons u1 rest ih =>
    cases rest with
    | nil => rfl
    | cons u2 rest2 =>
      have h1 : ¬ (55296 ≤ u1 ∧ u1 < 56320) := h u1 (by simp)
      simp only [utf16DecodeUnits]
      rw [if_neg (by tauto)]
      congr 1
      exact ih (fun u hu => h u (by simp only [List.mem_cons] at hu ⊢; tauto))

/-- C6 (amended): the CMGL body-line decoder decodes a line whose
stripped, lowercased form has length divisible by 4 and is all hex digits
into one code point per 4-digit group (UCS-2 code units, surrogate pairs
not combined) and returns every other line verbatim; when no group is a
high-surrogate unit this per-unit decoding coincides with genuine UTF-16
big-endian decoding.  In particular `"0041004200C4"` decodes to `"ABÄ"`
(`[65, 66, 196]`) and `"hello"` stays `"hello"`. -/
theorem C6_cmgl_decoder (s : Line) :
    ((pyLower (pyStrip s)).length % 4 = 0 ∧
        (pyLower (pyStrip s)).all isHexDigitLower = true →
      tryDecodeUtf16 s = decodeHexGroups (pyLower (pyStrip s)) ∧
      ((∀ u ∈ decodeHexGroups (pyLower (pyStrip s)), ¬ (55296 ≤ u ∧ u < 56320)) →
        tryDecodeUtf16 s = utf16DecodeUnits (decodeHexGroups (pyLower (pyStrip s))))) ∧
    (¬ ((pyLower (pyStrip s)).length % 4 = 0 ∧
        (pyLower (pyStrip s)).all isHexDigitLower = true) →
      tryDecodeUtf16 s = s) ∧
    tryDecodeUtf16 (asciiOf "0041004200C4") = [65, 66, 196] ∧
    tryDecodeUtf16 (asciiOf "hello") = asciiOf "hello" := by
  refine ⟨?_, ?_, by decide, by decide⟩
  · rintro ⟨hlen, hall⟩
    have hres : tryDecodeUtf16 s = decodeHexGroups (pyLower (pyStrip s)) := by
      unfold tryDecodeUtf16
      rw [if_neg (by simp [hlen]), if_neg (by simp [hall])]
    refine ⟨hres, fun hnosur => ?_⟩
    rw [hres, utf16DecodeUnits_eq_self hnosur]
  · intro hcond
    unfold tryDecodeUtf16
    by_cases hlen : (pyLower (pyStrip s)).length % 4 = 0
    · have hall : ¬ (pyLower (pyStrip s)).all isHexDigitLower = true := by tauto
      rw [if_neg (by simp [hlen]), if_pos (by simp [hall])]
    · rw [if_pos hlen]

/-- Witness for C6: the hex line `"0041004200C4"` satisfies the decode
condition and contains no surrogate unit, so it decodes as UTF-16 BE; the
line `"xy"` fails the condition and is returned verbatim. -/
theorem C6_cmgl_decoder_witness :
    tryDecodeUtf16 (asciiOf "0041004200C4") =
      utf16DecodeUnits (decodeHexGroups (pyLower (pyStrip (asciiOf "0041004200C4")))) ∧
    tryDecodeUtf16 (asciiOf "xy") = asciiOf "xy" :=
  ⟨((C6_cmgl_decoder (asciiOf "0041004200C4")).1 (by decide)).2 (by decide),
   (C6_cmgl_decoder (asciiOf "xy")).2.1 (by decide)⟩

/-- C6 counterexample: the body line `"D835DC00"` passes the hex
condition; the code decodes it to the two lone surrogate units
`[55349, 56320]`, while its UTF-16 big-endian decoding is the single code
point `[119808]` (U+1D400) — so the decoder's output is not "the UTF-16
big-endian decoding" of the line. -/
theorem C6_cmgl_decoder_counterexample :
    (pyLower (pyStrip (asciiOf "D835DC00"))).length % 4 = 0 ∧
    (pyLower (pyStrip (asciiOf "D835DC00"))).all isHexDigitLower = true ∧
    tryDecodeUtf16 (asciiOf "D835DC00") = [55349, 56320] ∧
    utf16DecodeUnits (decodeHexGroups (pyLower (pyStrip (asciiOf "D835DC00")))) =
      [119808] ∧
    tryDecodeUtf16 (asciiOf "D835DC00") ≠
      utf16DecodeUnits (decodeHexGroups (pyLower (pyStrip (asciiOf "D835DC00")))) :=
  ⟨by decide, by decide, by decide, by decide, by decide⟩

/-- C7: `SignalQuality.bars` agrees with the spec's threshold table on
every RSSI value (in particular on 0..31 and 99), and takes the tabulated
values 0→0, 1→0, 2→1, 9→1, 10→2, 14→2, 15→3, 19→3, 20→4, 24→4, 25→5,
31→5, 99→0. -/
theorem C7_bars_table :
    (∀ r : Nat, bars r = barsSpecTable r) ∧
    bars 0 = 0 ∧ bars 1 = 0 ∧ bars 2 = 1 ∧ bars 9 = 1 ∧ bars 10 = 2 ∧
    bars 14 = 2 ∧ bars 15 = 3 ∧ bars 19 = 3 ∧ bars 20 = 4 ∧ bars 24 = 4 ∧
    bars 25 = 5 ∧ bars 31 = 5 ∧ bars 99 = 0 := by
  refine ⟨?_, by decide, by decide, by decide, by decide, by decide, by decide,
    by decide, by decide, by decide, by decide, by decide, by decide, by decide⟩
  intro r
  unfold bars barsSpecTable
  by_cases h99 : r = 99
  · simp [h99]
  · by_cases h2 : r < 2 <;> simp [h99, h2]

/-- C3: through `ATChannel.command`, failures are raised, never returned:
an `.ok` outcome under `expect_ok` never carries an error-terminated
response (conjunct 1); a run whose every attempt times out raises the
timeout (conjunct 2); an attempt that yields a terminal response — error
or success — fixes the outcome regardless of the remaining retry streams,
so modem-reported errors are never retried (conjunct 3); a timed-out
attempt with attempts remaining moves on to the next stream (conjunct 4);
and for command `AT+CPIN?` with `expect_ok` and stream `+CME ERROR: 10`,
the raised `ATError` carries `cme_code = 10` and the command string,
parsed by the `\+CME ERROR:\s*(\d+)` / `\+CMS ERROR:\s*(\d+)` scan
(conjunct 5). -/
theorem commandGo_nil (cmd : Line) (eo : Bool) :
    commandGo cmd eo [] = .error .timeout := rfl

theorem commandGo_cons (cmd : Line) (eo : Bool) (s : List Line)
    (rest : List (List Line)) :
    commandGo cmd eo (s :: rest) =
      match readUntilTerminal defaultTerminals (some cmd) s with
      | .error _ =>
        match rest with
        | [] => .error .timeout
        | _ :: _ => commandGo cmd eo rest
      | .ok resp =>
        if eo then
          match raiseIfError cmd resp with
          | some d => .error (.atErr d)
          | none => .ok resp
        else .ok resp := rfl

theorem C3_command_failure_semantics :
    (∀ cmd streams resp, commandAttempts cmd true streams = .ok resp →
      raiseIfError (pyStrip cmd) resp = none) ∧
    (∀ cmd expectOk streams, (∀ s ∈ streams,
        readUntilTerminal defaultTerminals (some (pyStrip cmd)) s = .error ()) →
      commandAttempts cmd expectOk streams = .error .timeout) ∧
    (∀ cmd expectOk s rest rest' resp,
        readUntilTerminal defaultTerminals (some (pyStrip cmd)) s = .ok resp →
        commandAttempts cmd expectOk (s :: rest) =
          commandAttempts cmd expectOk (s :: rest')) ∧
    (∀ cmd expectOk s rest,
        readUntilTerminal defaultTerminals (some (pyStrip cmd)) s = .error () →
        rest ≠ [] →
        commandAttempts cmd expectOk (s :: rest) = commandAttempts cmd expectOk rest) ∧
    commandAttempts (asciiOf "AT+CPIN?") true [[asciiOf "+CME ERROR: 10\r\n"]] =
      .error (.atErr { command := asciiOf "AT+CPIN?",
                       response := asciiOf "+CME ERROR: 10",
                       cme := some 10, cms := none }) := by
  refine ⟨?_, ?_, ?_, ?_, by decide⟩
  · intro cmd streams resp h
    unfold commandAttempts at h
    induction streams with
    | nil => simp [commandGo] at h
    | cons s rest ih =>
      rw [commandGo_cons] at h
      cases hr : readUntilTerminal defaultTerminals (some (pyStrip cmd)) s with
      | error e =>
        rw [hr] at h
        cases rest with
        | nil => simp at h
        | cons s2 r2 => exact ih (by simpa using h)
      | ok resp2 =>
        rw [hr] at h
        simp only [if_true] at h
        cases hre : raiseIfError (pyStrip cmd) resp2 with
        | some d => rw [hre] at h; simp at h
        | none =>
          rw [hre] at h
          simp only [Except.ok.injEq] at h
          subst h
          exact hre
  · intro cmd expectOk streams hall
    unfold commandAttempts
    induction streams with
    | nil => rfl
    | cons s rest ih =>
      have hs := hall s (by simp)
      rw [commandGo_cons, hs]
      cases rest with
      | nil => rfl
      | cons s2 r2 => exact ih (fun x hx => hall x (by simp [hx]))
  · intro cmd expectOk s rest rest' resp hr
    unfold commandAttempts
    rw [commandGo_cons, commandGo_cons, hr]
  · intro cmd expectOk s rest hr hne
    unfold commandAttempts
    rw [commandGo_cons, hr]
    cases rest with
    | nil => exact absurd rfl hne
    | cons s2 r2 => rfl

/-- Witness for C3: concrete applications of conjuncts 1-4 — an all-
timeout run raises timeout; a first attempt answering `OK` fixes the
outcome whatever the later streams hold; a timed-out first attempt falls
through to the second stream; and an `.ok` result passes
`_raise_if_error`. -/
theorem C3_command_failure_semantics_witness :
    commandAttempts (asciiOf "AT") true [[], []] = .error .timeout ∧
    commandAttempts (asciiOf "AT") true [[asciiOf "OK\r\n"], [asciiOf "X"]] =
      commandAttempts (asciiOf "AT") true [[asciiOf "OK\r\n"], []] ∧
    commandAttempts (asciiOf "AT") true [[], [asciiOf "OK\r\n"]] =
      commandAttempts (asciiOf "AT") true [[asciiOf "OK\r\n"]] ∧
    raiseIfError (pyStrip (asciiOf "AT")) ⟨[asciiOf "OK"], asciiOf "OK\r\n"⟩ = none :=
  ⟨C3_command_failure_semantics.2.1 (asciiOf "AT") true [[], []] (by decide),
   C3_command_failure_semantics.2.2.1 (asciiOf "AT") true [asciiOf "OK\r\n"]
     [[asciiOf "X"]] [[]] ⟨[asciiOf "OK"], asciiOf "OK\r\n"⟩ (by decide),
   C3_command_failure_semantics.2.2.2.1 (asciiOf "AT") true [] [[asciiOf "OK\r\n"]]
     (by decide) (by decide),
   C3_command_failure_semantics.1 (asciiOf "AT") [[asciiOf "OK\r\n"]]
     ⟨[asciiOf "OK"], asciiOf "OK\r\n"⟩ (by decide)⟩

theorem cleanLines_cons (x : Line) (xs : List Line) :
    cleanLines (x :: xs) =
      if pyStrip x = [] then cleanLines xs else pyStrip x :: cleanLines xs := by
  unfold cleanLines
  simp only [List.map_cons, List.filter_cons]
  by_cases h : pyStrip x = [] <;> simp [h]

theorem readLoop_true_eq_scan (terms : List Line) (c : Line) :
    ∀ (input : List Line) (acc : List Line) (raw : Line),
      (readLoop terms (some c) true acc raw input).map ATResp.lines =
        (scanToTerminal terms (cleanLines input)).map (acc ++ ·) := by
  intro input
  induction input with
  | nil => intro acc raw; rfl
  | cons chunk rest ih =>
    intro acc raw
    rw [readLoop, cleanLines_cons]
    by_cases hline : pyStrip chunk = []
    · rw [if_pos hline, if_pos hline]
      exact ih acc (raw ++ chunk)
    · rw [if_neg hline, if_neg hline]
      have hecho : ¬ (¬ true = true ∧
          (pyStrip chunk = c ∨ pyStrip chunk = echoAlt c)) := by simp
      rw [if_neg hecho, scanToTerminal]
      by_cases hterm : isTerminalLine terms (pyStrip chunk) = true
      · rw [if_pos hterm, if_pos hterm]; rfl
      · rw [if_neg hterm, if_neg hterm]
        rw [ih (acc ++ [pyStrip chunk]) (raw ++ chunk)]
        cases scanToTerminal terms (cleanLines rest) <;> simp [Except.map]

theorem readLoop_false_eq_scan (terms : List Line) (c : Line) :
    ∀ (input : List Line) (acc : List Line) (raw : Line),
      (readLoop terms (some c) false acc raw input).map ATResp.lines =
        (scanToTerminal terms (removeFirstEcho c (cleanLines input))).map (acc ++ ·) := by
  intro input
  induction input with
  | nil => intro acc raw; rfl
  | cons chunk rest ih =>
    intro acc raw
    rw [readLoop, cleanLines_cons]
    by_cases hline : pyStrip chunk = []
    · rw [if_pos hline, if_pos hline]
      exact ih acc (raw ++ chunk)
    · rw [if_neg hline, if_neg hline, removeFirstEcho]
      by_cases hecho : pyStrip chunk = c ∨ pyStrip chunk = echoAlt c
      · rw [if_pos (by simpa using hecho), if_pos hecho]
        exact readLoop_true_eq_scan terms c rest acc (raw ++ chunk)
      · rw [if_neg (by simpa using hecho), if_neg hecho, scanToTerminal]
        by_cases hterm : isTerminalLine terms (pyStrip chunk) = true
        · rw [if_pos hterm, if_pos hterm]; rfl
        · rw [if_neg hterm, if_neg hterm]
          rw [ih (acc ++ [pyStrip chunk]) (raw ++ chunk)]
          cases scanToTerminal terms (removeFirstEcho c (cleanLines rest)) <;> simp [Except.map]

/-- C8 (amended): the echo filter compares each successive non-empty line
to the command (verbatim, or with `AT` removed and stripped) until the
first match, drops that single matching line, and never drops another in
the same send — the response lines are exactly a plain terminal scan of
the stream's non-empty stripped lines with the first echo-matching line
removed.  In particular, writing `AT` against the stream
`AT\r\nOK\r\n` yields lines `["OK"]` and raises no AT error. -/
theorem C8_echo_filter (c : Line) (input : List Line) :
    (readUntilTerminal defaultTerminals (some c) input).map ATResp.lines =
      scanToTerminal defaultTerminals (removeFirstEcho c (cleanLines input)) ∧
    readUntilTerminal defaultTerminals (some (asciiOf "AT"))
        [asciiOf "AT\r\n", asciiOf "OK\r\n"] =
      .ok ⟨[asciiOf "OK"], asciiOf "AT\r\nOK\r\n"⟩ ∧
    raiseIfError (asciiOf "AT") ⟨[asciiOf "OK"], asciiOf "AT\r\nOK\r\n"⟩ = none := by
  refine ⟨?_, by decide, by decide⟩
  unfold readUntilTerminal
  rw [readLoop_false_eq_scan defaultTerminals c input [] []]
  cases scanToTerminal defaultTerminals (removeFirstEcho c (cleanLines input)) <;> rfl

/-- C8 counterexample: for command `AT` and stream
`X\r\nAT\r\nOK\r\n`, the code drops the SECOND non-empty line (`AT`) as
echo, yielding lines `["X", "OK"]` — under the claim, which compares only
the first non-empty line, the `AT` line would have been kept and the
lines would be `["X", "AT", "OK"]`. -/
theorem C8_echo_filter_counterexample :
    (readUntilTerminal defaultTerminals (some (asciiOf "AT"))
        [asciiOf "X\r\n", asciiOf "AT\r\n", asciiOf "OK\r\n"]).map ATResp.lines =
      .ok [asciiOf "X", asciiOf "OK"] ∧
    (Except.ok [asciiOf "X", asciiOf "OK"] : Except Unit (List Line)) ≠
      .ok [asciiOf "X", asciiOf "AT", asciiOf "OK"] :=
  ⟨by decide, by decide⟩

/-- C9: evaluating `CombinedLock.acquire` at the failing input.  From the
free state, one thread's acquire succeeds on both layers.  A nested
acquire by the same thread then succeeds on the reentrant thread layer
(`rlockAcquire` increments the hold count) but blocks forever on the file
layer: the fresh descriptor's `flock(LOCK_EX)` waits for the lock held on
the outer call's descriptor, so the combined inner acquire deadlocks
(`none`), contradicting the claim that it completes on both layers. -/
theorem C9_nested_acquire_deadlocks :
    combinedAcquire 0 ⟨none, 0, 0⟩ = some ⟨some 0, 1, 1⟩ ∧
    rlockAcquire 0 ⟨some 0, 1, 1⟩ = some ⟨some 0, 2, 1⟩ ∧
    combinedAcquire 0 ⟨some 0, 1, 1⟩ = none :=
  ⟨rfl, rfl, rfl⟩

/-- C10: `Power.set_functionality` with an argument outside {0, 1, 4} and
`Power.set_sleep` with an argument outside {0, 1, 2} raise `PowerError`
with an empty command trace: nothing is handed to the AT channel, so no
byte reaches the serial port and the modem state is untouched. -/
theorem C10_invalid_args_send_nothing :
    (∀ f : Int, ¬ (f = 0 ∨ f = 1 ∨ f = 4) →
      setFunctionality f = ([], some (.invalidCfun f))) ∧
    (∀ m : Int, ¬ (m = 0 ∨ m = 1 ∨ m = 2) →
      setSleep m = ([], some .invalidCsclk)) := by
  constructor
  · intro f hf; simp [setFunctionality, hf]
  · intro m hm; simp [setSleep, hm]

/-- Witness for C10 at the concrete arguments 2 (CFUN) and 3 (CSCLK). -/
theorem C10_invalid_args_send_nothing_witness :
    setFunctionality 2 = ([], some (.invalidCfun 2)) ∧
    setSleep 3 = ([], some .invalidCsclk) :=
  ⟨C10_invalid_args_send_nothing.1 2 (by decide),
   C10_invalid_args_send_nothing.2 3 (by decide)⟩

theorem findSub_eq_some_of {pat : Line} (l : Line) (m : Nat)
    (hm : pat.isPrefixOf (l.drop m) = true)
    (hlt : ∀ j < m, ¬ pat.isPrefixOf (l.drop j) = true) :
    findSub pat l = some m := by
  induction l generalizing m with
  | nil =>
    cases m with
    | zero => simpa [findSub] using hm
    | succ k =>
      exact absurd (by simpa using hm) (by simpa using hlt 0 (Nat.succ_pos k))
  | cons x t ih =>
    cases m with
    | zero => rw [findSub, if_pos (by simpa using hm)]
    | succ k =>
      rw [findSub, if_neg (by simpa using hlt 0 (Nat.succ_pos k))]
      rw [ih k (by simpa using hm)
        (fun j hj => by simpa using hlt (j + 1) (by omega))]
      rfl

theorem httpReadPhase1_nil (raw inp : Line) :
    httpReadPhase1 raw inp [] = (raw, inp, []) := rfl

theorem httpReadPhase1_cons (raw inp : Line) (n : Nat) (rest : List Nat) :
    httpReadPhase1 raw inp (n :: rest) =
      if (findSub httpReadMarker raw).isSome then (raw, inp, n :: rest)
      else httpReadPhase1 (raw ++ inp.take (min n inp.length))
        (inp.drop (min n inp.length)) rest := rfl

theorem httpReadPhase2_nil (target : Nat) (raw inp : Line) :
    httpReadPhase2 target raw inp [] = raw := rfl

theorem httpReadPhase2_cons (target : Nat) (raw inp : Line) (n : Nat)
    (rest : List Nat) :
    httpReadPhase2 target raw inp (n :: rest) =
      if target ≤ raw.length then raw
      else
        httpReadPhase2 target
          (raw ++ inp.take (min (min n (min (target - raw.length) 1024)) inp.length))
          (inp.drop (min (min n (min (target - raw.length) 1024)) inp.length)) rest := rfl

theorem httpReadPhase1_take (inp : Line) :
    ∀ (sched : List Nat) (a : Nat),
      ∃ t sched2, a ≤ t ∧
        httpReadPhase1 (inp.take a) (inp.drop a) sched = (inp.take t, inp.drop t, sched2) := by
  intro sched
  induction sched with
  | nil => intro a; exact ⟨a, [], Nat.le_refl a, rfl⟩
  | cons n rest ih =>
    intro a
    rw [httpReadPhase1_cons]
    by_cases hm : (findSub httpReadMarker (inp.take a)).isSome = true
    · exact ⟨a, n :: rest, Nat.le_refl a, by rw [if_pos hm]⟩
    · rw [if_neg hm]
      rw [← List.take_add, List.drop_drop]
      obtain ⟨t, s2, hle, heq⟩ := ih (a + min n (inp.drop a).length)
      exact ⟨t, s2, Nat.le_trans (Nat.le_add_right _ _) hle, heq⟩

theorem httpReadPhase2_take (inp : Line) (target : Nat) :
    ∀ (sched : List Nat) (a : Nat),
      ∃ t, a ≤ t ∧ httpReadPhase2 target (inp.take a) (inp.drop a) sched = inp.take t := by
  intro sched
  induction sched with
  | nil => intro a; exact ⟨a, Nat.le_refl a, rfl⟩
  | cons n rest ih =>
    intro a
    rw [httpReadPhase2_cons]
    by_cases htar : target ≤ (inp.take a).length
    · exact ⟨a, Nat.le_refl a, by rw [if_pos htar]⟩
    · rw [if_neg htar]
      rw [← List.take_add, List.drop_drop]
      obtain ⟨t, hle, heq⟩ :=
        ih (a + min (min n (min (target - (inp.take a).length) 1024)) (inp.drop a).length)
      exact ⟨t, Nat.le_trans (Nat.le_add_right _ _) hle, heq⟩

theorem isPrefixOf_take {p r : Line} {t : Nat} (h : p.length ≤ t) :
    p.isPrefixOf ((p ++ r).take t) = true := by
  rw [isPrefixOf_iff_exists]
  refine ⟨r.take (t - p.length), ?_⟩
  rw [List.take_append_eq_append_take, List.take_of_length_le (by omega)]

theorem readHttpBody_ok_length (L : Nat) (inp : Line) (sched : List Nat) (b : Line)
    (h : readHttpBody L inp sched = .ok b) : b.length = L := by
  by_cases hL : L = 0
  · simp only [readHttpBody, hL, if_true, Except.ok.injEq] at h
    subst h
    simp [hL]
  · simp only [readHttpBody, hL, if_false] at h
    split at h
    · simp at h
    · split at h
      · simp at h
      · split at h
        · simp at h
        · rename_i firstCrlf hfc hnl
          simp only [Except.ok.injEq] at h
          subst h
          simp only [List.length_take, List.length_drop]
          omega

theorem readHttpBody_ne_stack (L : Nat) (inp : Line) (sched : List Nat) (s : Nat) :
    readHttpBody L inp sched ≠ .error (.stack s) := by
  intro h
  by_cases hL : L = 0
  · simp [readHttpBody, hL] at h
  · simp only [readHttpBody, hL, if_false] at h
    split at h
    · simp at h
    · split at h
      · simp at h
      · split at h <;> simp_all

/-- C1 (amended): for a stream consisting of the `+HTTPREAD:` marker, a
CR/LF-free remainder of the marker line, CRLF, the `L` body bytes `B` and
any trailing bytes, and any read schedule under which the CRLF ending the
marker line has already been received when the marker is first seen in
the buffer, `_read_http_body(L)` returns either exactly `B` — even when
`B` contains CR, LF, `OK` or `ERROR` — or the `truncated` HTTPError when
the bytes do not all arrive before the deadline, never a short or
corrupted buffer (conjunct 1).  Every `.ok` result of `_read_http_body`
has exactly the expected length (conjunct 2), so every `HTTPResponse`
produced by `_action_and_read` (hence by get/post/head) satisfies
`len(data) = L` for the length `L` of the `+HTTPACTION` URC, and 0 for
HEAD (conjunct 3). -/
theorem C1_http_body_read :
    (∀ (L : Nat) (B sep post : Line) (sched : List Nat),
      0 < L → B.length = L → (∀ c ∈ sep, c ≠ 13) →
      httpReadMarker.length + sep.length + 2 ≤
        (httpReadPhase1 [] (httpReadMarker ++ sep ++ crlf ++ B ++ post) sched).1.length →
      readHttpBody L (httpReadMarker ++ sep ++ crlf ++ B ++ post) sched = .ok B ∨
        ∃ g, readHttpBody L (httpReadMarker ++ sep ++ crlf ++ B ++ post) sched =
          .error (.truncated g L)) ∧
    (∀ L inp sched b, readHttpBody L inp sched = .ok b → b.length = L) ∧
    (∀ method a r, actionAndRead method a = .ok r →
      ∃ l s len, a.urcLine = some l ∧ parseHttpAction l = some (s, len) ∧
        r.statusCode = s ∧ r.data.length = if method = 2 then 0 else len) := by
  refine ⟨?_, readHttpBody_ok_length, ?_⟩
  · intro L B sep post sched hL hB hsep hyp
    set inp := httpReadMarker ++ sep ++ crlf ++ B ++ post with hinp
    obtain ⟨t, sched2, -, hp⟩ := httpReadPhase1_take inp sched 0
    rw [List.take_zero, List.drop_zero] at hp
    simp only [hp] at hyp
    have hlent : (inp.take t).length = min t inp.length := by
      simp [List.length_take]
    have hinplen : httpReadMarker.length + sep.length + 2 + B.length ≤ inp.length := by
      simp [hinp, crlf]
      omega
    have hmlen10 : httpReadMarker.length = 10 := rfl
    have hclen : crlf.length = (2 : Nat) := rfl
    have hgroup : inp = (httpReadMarker ++ sep) ++ (crlf ++ (B ++ post)) := by
      simp [hinp, List.append_assoc]
    have hdropm : inp.drop (httpReadMarker.length + sep.length) = crlf ++ (B ++ post) := by
      rw [hgroup]
      exact List.drop_left' (by simp)
    have hmarkpre : httpReadMarker.isPrefixOf (inp.take t) = true := by
      rw [hinp]
      exact isPrefixOf_take (by omega)
    have hfm : findSub httpReadMarker (inp.take t) = some 0 :=
      findSub_eq_some_of _ 0 (by simpa using hmarkpre)
        (fun j hj => absurd hj (Nat.not_lt_zero j))
    have hcm : crlf.isPrefixOf
        ((inp.take t).drop (httpReadMarker.length + sep.length)) = true := by
      rw [List.drop_take, hdropm]
      exact isPrefixOf_take (by omega)
    have hno : ∀ j < httpReadMarker.length + sep.length,
        ¬ crlf.isPrefixOf ((inp.take t).drop j) = true := by
      intro j hj hpref
      rw [isPrefixOf_iff_exists] at hpref
      obtain ⟨w, hw⟩ := hpref
      have e1 : ((inp.take t).drop j)[0]? = some 13 := by rw [hw]; rfl
      rw [List.getElem?_drop] at e1
      rw [List.getElem?_take] at e1
      rw [if_pos (by omega)] at e1
      rw [hgroup, List.getElem?_append, if_pos (by simp; omega)] at e1
      obtain ⟨hlt2, he⟩ := List.getElem?_eq_some.mp e1
      have hmem : (13 : Nat) ∈ httpReadMarker ++ sep := he ▸ List.getElem_mem hlt2
      rcases List.mem_append.mp hmem with hmm | hms
      · exact absurd hmm (by decide)
      · exact absurd rfl (hsep 13 hms)
    have hfc : findSubFrom crlf 0 (inp.take t) =
        some (httpReadMarker.length + sep.length) := by
      unfold findSubFrom
      rw [List.drop_zero, findSub_eq_some_of (inp.take t) _ hcm hno]
      simp
    have hL0 : ¬ L = 0 := by omega
    obtain ⟨t2, ht2, hp2⟩ :=
      httpReadPhase2_take inp (httpReadMarker.length + sep.length + 2 + L) sched2 t
    have hdropm2 : inp.drop (httpReadMarker.length + sep.length + 2) = B ++ post := by
      have hgroup2 : inp = (httpReadMarker ++ sep ++ crlf) ++ (B ++ post) := by
        simp [hinp, List.append_assoc]
      rw [hgroup2]
      exact List.drop_left' (by simp [hclen]; omega)
    have ht2len : (inp.take t2).length = min t2 inp.length := by
      simp [List.length_take]
    rcases Nat.lt_or_ge (inp.take t2).length
        (httpReadMarker.length + sep.length + 2 + L) with hlt | hge
    · right
      refine ⟨(inp.take t2).length - (httpReadMarker.length + sep.length + 2), ?_⟩
      simp only [readHttpBody, hL0, if_false, hp, hfm, hfc]
      rw [hp2, if_pos hlt]
    · left
      simp only [readHttpBody, hL0, if_false, hp, hfm, hfc]
      rw [hp2, if_neg (by omega)]
      congr 1
      rw [List.drop_take, hdropm2, List.take_take, min_eq_left (by omega), ← hB,
        List.take_left]
  · intro method a r h
    cases hu : a.urcLine with
    | none => simp [actionAndRead, hu] at h
    | some l =>
      cases hpa : parseHttpAction l with
      | none => simp [actionAndRead, hu, hpa] at h
      | some p =>
        rcases p with ⟨s, len⟩
        simp only [actionAndRead, hu, hpa] at h
        refine ⟨l, s, len, rfl, hpa, ?_⟩
        by_cases h6 : 600 ≤ s
        · rw [if_pos h6] at h; simp at h
        · rw [if_neg h6] at h
          by_cases hm2 : method = 2
          · rw [if_pos hm2] at h
            simp only [Except.ok.injEq] at h
            subst h
            simp [hm2]
          · rw [if_neg hm2] at h
            by_cases hlen : len = 0
            · rw [if_pos hlen] at h
              simp only [Except.ok.injEq] at h
              subst h
              simp [hm2, hlen]
            · rw [if_neg hlen] at h
              cases hrb : readHttpBody len a.bodyInp a.bodySched with
              | error e => simp [hrb] at h
              | ok b =>
                simp only [hrb] at h
                simp only [Except.ok.injEq] at h
                subst h
                refine ⟨rfl, ?_⟩
                rw [if_neg hm2]
                exact readHttpBody_ok_length len a.bodyInp a.bodySched b hrb

/-- Witness for C1: the concrete stream `+HTTPREAD: 5\r\nOK\r\nE\r\nOK\r\n`
(body `OK\r\nE`, which contains CR, LF and the substring `OK`) delivered
in one 100-byte read satisfies the header-chunking hypothesis. -/
theorem C1_http_body_read_witness :
    readHttpBody 5 (httpReadMarker ++ asciiOf " 5" ++ crlf ++ asciiOf "OK\r\nE" ++
        asciiOf "\r\nOK\r\n") [100] = .ok (asciiOf "OK\r\nE") ∨
      ∃ g, readHttpBody 5 (httpReadMarker ++ asciiOf " 5" ++ crlf ++ asciiOf "OK\r\nE" ++
        asciiOf "\r\nOK\r\n") [100] = .error (.truncated g 5) :=
  C1_http_body_read.1 5 (asciiOf "OK\r\nE") (asciiOf " 5") (asciiOf "\r\nOK\r\n") [100]
    (by decide) (by decide) (by decide) (by decide)

/-- C1 counterexample: the stream `+HTTPREAD: 1\r\nX\r\nOK\r\n` carries the
one-byte body `X`, but under the chunking that delivers exactly the ten
marker bytes first (schedule `[10, 100]`), the code exits its marker-wait
loop before the header CRLF has arrived and raises the "Malformed
+HTTPREAD response" error instead of returning `X` — refuting "under any
chunking of the serial reads". -/
theorem C1_http_body_read_counterexample :
    readHttpBody 1 (asciiOf "+HTTPREAD: 1\r\nX\r\nOK\r\n") [10, 100] =
      .error .malformedRead ∧
    readHttpBody 1 (asciiOf "+HTTPREAD: 1\r\nX\r\nOK\r\n") [10, 100] ≠
      .ok (asciiOf "X") :=
  ⟨by decide, by decide⟩

theorem retryAux_succ (f : Nat → Except HTTPErr HTTPResponse) (idx n : Nat) :
    retryAux f idx (n + 1) =
      match f idx with
      | .ok r => (.ok r, 1)
      | .error e =>
        if ¬ e.statusCode = some 604 then (.error e, 1)
        else if n = 0 then (.error e, 1)
        else ((retryAux f (idx + 1) n).1, (retryAux f (idx + 1) n).2 + 1) := rfl

theorem retryAux_count_le (f : Nat → Except HTTPErr HTTPResponse) :
    ∀ (n idx : Nat), (retryAux f idx n).2 ≤ n := by
  intro n
  induction n with
  | zero => intro idx; simp [retryAux]
  | succ k ih =>
    intro idx
    rw [retryAux_succ]
    cases hf : f idx with
    | ok r => simp
    | error e =>
      simp only []
      by_cases h6 : e.statusCode = some 604
      · rw [if_neg (not_not_intro h6)]
        by_cases hk : k = 0
        · rw [if_pos hk]; simp
        · rw [if_neg hk]
          simpa using Nat.succ_le_succ (ih (idx + 1))
      · rw [if_pos h6]; simp

/-- C2: `HTTP.get`/`HTTP.post` under `retry_on_http_error` retry exactly
on stack status 604, at most 3 attempts in total.  Conjuncts: (1) spec
scenario F — two `+HTTPACTION: 0,604,0` URCs then `+HTTPACTION: 0,200,11`
with body `hello world` gives status 200, body `hello world`, exactly 3
action attempts; (2) never more than 3 attempts; (3) an `HTTPError` whose
status is not 604 (including status-less errors) is raised at once, after
a single attempt; (4) a success ends the loop after a single attempt;
(5) a 604 leads to a further attempt; (6) every URC status ≥ 600
(601, 602, 603, 606, ...) becomes a raised `HTTPError` carrying that
status; (7) no status below 600 is ever raised as a stack error; (8)
URC statuses below 600 are returned in an `HTTPResponse` (with the body
when the read succeeds).  The 5-second inter-attempt delay is a
`time.sleep` and is not observable in this model. -/
theorem C2_http_604_retry :
    getRun scenarioF = (.ok ⟨200, asciiOf "hello world"⟩, 3) ∧
    (∀ f, (retryAux f 0 3).2 ≤ 3) ∧
    (∀ f e, f 0 = .error e → ¬ e.statusCode = some 604 →
      retryAux f 0 3 = (.error e, 1)) ∧
    (∀ f r, f 0 = .ok r → retryAux f 0 3 = (.ok r, 1)) ∧
    (∀ f e, f 0 = .error e → e.statusCode = some 604 →
      retryAux f 0 3 = ((retryAux f 1 2).1, (retryAux f 1 2).2 + 1)) ∧
    (∀ l a s len, a.urcLine = some l → parseHttpAction l = some (s, len) → 600 ≤ s →
      actionAndRead 0 a = .error (.stack s)) ∧
    (∀ a s, actionAndRead 0 a = .error (.stack s) → 600 ≤ s) ∧
    (∀ l a s len, a.urcLine = some l → parseHttpAction l = some (s, len) → s < 600 →
      (len = 0 → actionAndRead 0 a = .ok ⟨s, []⟩) ∧
      (∀ b, readHttpBody len a.bodyInp a.bodySched = .ok b →
        actionAndRead 0 a = .ok ⟨s, b⟩)) := by
  refine ⟨by decide, fun f => retryAux_count_le f 3 0, ?_, ?_, ?_, ?_, ?_, ?_⟩
  · intro f e hf h6
    have h3 : (3 : Nat) = 2 + 1 := rfl
    rw [h3, retryAux_succ]
    simp only [hf]
    rw [if_pos h6]
  · intro f r hf
    have h3 : (3 : Nat) = 2 + 1 := rfl
    rw [h3, retryAux_succ]
    simp [hf]
  · intro f e hf h6
    have h3 : (3 : Nat) = 2 + 1 := rfl
    rw [h3, retryAux_succ]
    simp only [hf]
    rw [if_neg (not_not_intro h6), if_neg (by decide : ¬ (2 : Nat) = 0)]
  · intro l a s len hu hpa h6
    simp only [actionAndRead, hu, hpa]
    rw [if_pos h6]
    rfl
  · intro a s h
    cases hu : a.urcLine with
    | none => simp [actionAndRead, hu] at h
    | some l =>
      cases hpa : parseHttpAction l with
      | none => simp [actionAndRead, hu, hpa] at h
      | some p =>
        rcases p with ⟨s2, len⟩
        simp only [actionAndRead, hu, hpa] at h
        by_cases h6 : 600 ≤ s2
        · rw [if_pos h6] at h
          simp only [handleHttpError, Except.error.injEq, HTTPErr.stack.injEq] at h
          omega
        · rw [if_neg h6, if_neg (by decide : ¬ (0 : Nat) = 2)] at h
          by_cases hlen : len = 0
          · rw [if_pos hlen] at h
            simp at h
          · rw [if_neg hlen] at h
            cases hrb : readHttpBody len a.bodyInp a.bodySched with
            | ok b => simp [hrb] at h
            | error e =>
              simp only [hrb, Except.error.injEq] at h
              exact absurd (by rw [hrb, h])
                (readHttpBody_ne_stack len a.bodyInp a.bodySched s)
  · intro l a s len hu hpa hlt
    constructor
    · intro hlen
      simp only [actionAndRead, hu, hpa]
      rw [if_neg (by omega), if_neg (by decide : ¬ (0 : Nat) = 2), if_pos hlen]
    · intro b hrb
      by_cases hlen : len = 0
      · have hb : b = [] := by
          have := readHttpBody_ok_length len a.bodyInp a.bodySched b hrb
          subst hlen
          simpa using this
        subst hb
        simp only [actionAndRead, hu, hpa]
        rw [if_neg (by omega), if_neg (by decide : ¬ (0 : Nat) = 2), if_pos hlen]
      · simp only [actionAndRead, hu, hpa]
        rw [if_neg (by omega), if_neg (by decide : ¬ (0 : Nat) = 2), if_neg hlen]
        simp [hrb]

/-- Witness for C2: a persistent 601 is raised after one attempt; a first
604 triggers a retry; the URC `+HTTPACTION: 0,601,0` raises the stack
error 601; the URC `+HTTPACTION: 0,204,0` is returned as status 204 with
an empty body. -/
theorem C2_http_604_retry_witness :
    retryAux (fun _ => .error (.stack 601)) 0 3 = (.error (.stack 601), 1) ∧
    retryAux (fun _ => .error (.stack 604)) 0 3 =
      ((retryAux (fun _ => .error (.stack 604)) 1 2).1,
       (retryAux (fun _ => .error (.stack 604)) 1 2).2 + 1) ∧
    actionAndRead 0 ⟨some (asciiOf "+HTTPACTION: 0,601,0"), [], []⟩ =
      .error (.stack 601) ∧
    actionAndRead 0 ⟨some (asciiOf "+HTTPACTION: 0,204,0"), [], []⟩ =
      .ok ⟨204, []⟩ :=
  ⟨C2_http_604_retry.2.2.1 (fun _ => .error (.stack 601)) (.stack 601) rfl (by decide),
   C2_http_604_retry.2.2.2.2.1 (fun _ => .error (.stack 604)) (.stack 604) rfl rfl,
   C2_http_604_retry.2.2.2.2.2.1 (asciiOf "+HTTPACTION: 0,601,0")
     ⟨some (asciiOf "+HTTPACTION: 0,601,0"), [], []⟩ 601 0 rfl (by decide) (by decide),
   (C2_http_604_retry.2.2.2.2.2.2.2 (asciiOf "+HTTPACTION: 0,204,0")
     ⟨some (asciiOf "+HTTPACTION: 0,204,0"), [], []⟩ 204 0 rfl (by decide) (by decide)).1
     rfl⟩

theorem waitDownloadLoop_any (chunks : List Line) :
    waitDownloadLoop chunks =
      chunks.any (fun c => (findSub downloadBytes c).isSome) := by
  induction chunks with
  | nil => rfl
  | cons c rest ih =>
    rw [waitDownloadLoop, List.any_cons]
    by_cases h : (findSub downloadBytes c).isSome = true
    · simp [h]
    · simp only [Bool.not_eq_true] at h
      simp [h, ih]

/-- C4 (amended): after `AT+HTTPDATA=<len>,<ms>` is written, the
DOWNLOAD-prompt loop inside `post` tests each serial read chunk on its
own, so — under any chunking before the deadline — `post` writes the body
exactly when some single chunk contains `DOWNLOAD`, and it raises the
"Did not receive DOWNLOAD prompt" error exactly when no single chunk
does (even if `DOWNLOAD` appears in the concatenated stream). -/
theorem C4_download_prompt (body : Line) (ms : Nat) (chunks : List Line) :
    (httpDataUpload body ms chunks = .ok [httpDataCmd body.length ms, body] ↔
      ∃ c ∈ chunks, ∃ u v, c = u ++ downloadBytes ++ v) ∧
    (httpDataUpload body ms chunks = .error .noDownloadPrompt ↔
      ¬ ∃ c ∈ chunks, ∃ u v, c = u ++ downloadBytes ++ v) := by
  have hiff : waitDownloadLoop chunks = true ↔
      ∃ c ∈ chunks, ∃ u v, c = u ++ downloadBytes ++ v := by
    rw [waitDownloadLoop_any, List.any_eq_true]
    constructor
    · rintro ⟨c, hc, hf⟩
      obtain ⟨u, v, huv⟩ := findSub_isSome_iff.mp hf
      exact ⟨c, hc, u, v, huv⟩
    · rintro ⟨c, hc, u, v, huv⟩
      exact ⟨c, hc, findSub_isSome_iff.mpr ⟨u, v, huv⟩⟩
  unfold httpDataUpload
  by_cases hw : waitDownloadLoop chunks = true
  · rw [if_pos hw]
    exact ⟨iff_of_true rfl (hiff.mp hw),
      iff_of_false (by simp) (not_not_intro (hiff.mp hw))⟩
  · rw [if_neg hw]
    exact ⟨iff_of_false (by simp) (fun hex => hw (hiff.mpr hex)),
      iff_of_true rfl (fun hex => hw (hiff.mpr hex))⟩

/-- C4 counterexample: the stream delivered as the two chunks `DOWN` and
`LOAD` contains `DOWNLOAD` (their concatenation is exactly it), yet the
prompt loop misses it and `post` raises instead of sending the body —
refuting the claim for chunkings that split the prompt. -/
theorem C4_download_prompt_counterexample :
    (∃ u v, asciiOf "DOWN" ++ asciiOf "LOAD" = u ++ downloadBytes ++ v) ∧
    httpDataUpload (asciiOf "x") 10000 [asciiOf "DOWN", asciiOf "LOAD"] =
      .error .noDownloadPrompt :=
  ⟨⟨[], [], by decide⟩, by decide⟩

end USim800
